import Mathlib

/-!
Verification of the search-result directory cache of `pkg/fs` (perkeep):
a shallow embedding of `searchResult.go` (`searchResultDir.ReadDirAll` and
`searchResultDir.Lookup`) together with the constant `searchSearchInterval`
from `search.go`, and proofs of the specified properties.

Modelling conventions:
- Go strings are `List Char` (the identifiers and names involved are ASCII,
  so Go's byte indexing coincides with character indexing).
- `time.Time` is `Nat`; the Go zero time is `none` where the code tests it.
  One call is modelled as happening at a single instant `now` (the several
  `time.Now()` calls inside one `ReadDirAll` are identified).
- The backend search (`n.fs.client.Query`) is an oracle argument
  `queryRes : Option SearchResult`; `none` models a transport/query error.
- Go maps whose insertion order matters here are association lists; lookup
  of an absent key yields `none` (Go: the zero value / `nil`).
- A Go runtime panic (the unguarded slice `[:10]` at line 140) is modelled
  by an `Option` result at the level of the whole operation (`none`).
-/

set_option autoImplicit false

namespace PerkeepFS

/-- Characters of a Go string. -/
abbrev Str := List Char

/-- Modelled from the spec: `blob.Ref` from the repository's blob package
(not under src/) — a content identifier made of a hash-algorithm name and a
hash digest, whose string form is "hashname-digest". -/
structure BlobRef where
  hashName : Str
  digest : Str
deriving DecidableEq

/-- Go `blob.Ref.String()`: the hash-algorithm name, a dash, the digest. -/
def BlobRef.str (br : BlobRef) : Str := br.hashName ++ '-' :: br.digest

/-- Go `strings.HasPrefix(s, p)` (arguments: pattern first, then string). -/
def hasPre : Str → Str → Bool
  | [], _ => true
  | _ :: _, [] => false
  | p :: ps, c :: cs => p == c && hasPre ps cs

/-- Go `strings.TrimPrefix(s, p)` (arguments: pattern first, then string). -/
def trimPre (p s : Str) : Str := if hasPre p s then s.drop p.length else s

/-- Go `strings.HasSuffix(s, p)` (arguments: pattern first, then string). -/
def hasSuf (p s : Str) : Bool := hasPre p.reverse s.reverse

/-- Scan of the reversed path used by `filepath.Ext`: stop at a path
separator, return everything from the last dot on. -/
def extScan : Str → Str → Str
  | [], _ => []
  | c :: rest, acc =>
    if c = '/' then []
    else if c = '.' then '.' :: acc
    else extScan rest (c :: acc)

/-- Go `filepath.Ext(path)`: the suffix beginning at the final dot in the
final path element; empty if there is no dot. -/
def filepathExt (s : Str) : Str := extScan s.reverse []

/-- Go slice expression `s[:n]` on a string: panics (modelled as `none`)
when `n` exceeds the length. -/
def goSliceTo (s : Str) (n : Nat) : Option Str :=
  if n ≤ s.length then some (s.take n) else none

/-- First-match lookup in an association list, as for a Go map read
(`none` for an absent key, where Go yields the zero value / `nil`). -/
def mapGet {κ α : Type} [DecidableEq κ] (m : List (κ × α)) (k : κ) : Option α :=
  match m with
  | [] => none
  | (k2, v) :: rest => if k2 = k then some v else mapGet rest k

/-- Modelled from the spec: `blob.Parse` from the repository's blob package
(not under src/) — parses "hashname-digest" into a `BlobRef`, failing on
anything else (in particular on the empty string returned by
`Attr.Get("camliContent")` when the attribute is absent). -/
def blobParse (s : Str) : Option BlobRef :=
  match s.dropWhile (fun c => c != '-') with
  | [] => none
  | _ :: digest =>
    let hn := s.takeWhile (fun c => c != '-')
    if hn = [] ∨ digest = [] then none else some ⟨hn, digest⟩

/-- Modelled from the spec: the "file" metadata of a described item from the
repository's search package (not under src/) — name, MIME type, timestamp.
`time = none` models a time for which `IsAnyZero()` holds. -/
structure FileInfo where
  fileName : Str
  mimeType : Str
  time : Option Nat
deriving DecidableEq

/-- Modelled from the spec: the "directory" metadata of a described item. -/
structure DirInfo where
  fileName : Str
deriving DecidableEq

/-- Modelled from the spec: the permanode part of a described blob; only the
"camliContent" attribute is read by this core (`Attr.Get("camliContent")`,
the empty string when unset). -/
structure Permanode where
  camliContent : Str
deriving DecidableEq

/-- Modelled from the spec: `search.DescribedBlob` (not under src/) — the
described item for one blob: its identifier, and optional permanode, file
and directory shapes. -/
structure DescribedBlob where
  blobRef : BlobRef
  permanode : Option Permanode
  file : Option FileInfo
  dir : Option DirInfo
deriving DecidableEq

/-- Modelled from the spec: the describe part of a search response; `meta`
maps blob identifiers to described items (`res.Describe.Meta.Get`). -/
structure DescribeResponse where
  meta : Option (List (BlobRef × DescribedBlob))
deriving DecidableEq

/-- Modelled from the spec: a search response — the matched blob identifiers
in result order (`res.Blobs`, each contributing its `.Blob`), plus the
optional describe index. -/
structure SearchResult where
  blobs : List BlobRef
  describe : Option DescribeResponse
deriving DecidableEq

/-- The MIME-type suffix tested at line 137 of searchResult.go. -/
def jpegMime : Str := "image/jpeg".toList

/-- The extension forced at line 138 of searchResult.go. -/
def jpgExt : Str := ".jpg".toList

/-- The state built during one refresh pass of `ReadDirAll`: the `n.ents`
and `n.modTime` maps (freshly cleared at lines 74-75) and the `n.lastNames`
slice (reset at line 94), all grown together at lines 145-148. -/
structure ProjSt where
  ents : List (Str × DescribedBlob)
  modTime : List (Str × Nat)
  names : List Str
deriving DecidableEq

/-- The switch at lines 123-134 of searchResult.go: candidate display name
and modification time of the content item, `none` when the item is neither
file-shaped nor directory-shaped (the `default: continue` case). The
default `modTime := time.Now()` of line 97 is the `now` argument. -/
def nameAndTime (ccMeta : DescribedBlob) (now : Nat) : Option (Str × Nat) :=
  match ccMeta.file with
  | some f => some (f.fileName, match f.time with | some t => t | none => now)
  | none =>
    match ccMeta.dir with
    | some d => some (d.fileName, now)
    | none => none

/-- Lines 136-139 of searchResult.go: the extension appended to the
synthesized fallback name. -/
def fallbackExt (name0 : Str) (ccMeta : DescribedBlob) : Str :=
  let ext := filepathExt name0
  if ext.isEmpty && (match ccMeta.file with
      | some f => hasSuf jpegMime f.mimeType
      | none => false)
  then jpgExt else ext

/-- Line 140 of searchResult.go:
`strings.TrimPrefix(ccMeta.BlobRef.String(), ccMeta.BlobRef.HashName()+"-")[:10] + ext`.
`none` models the Go slice panic when the trimmed identifier is shorter
than 10 bytes. -/
def synthName (name0 : Str) (ccMeta : DescribedBlob) : Option Str :=
  match goSliceTo (trimPre (ccMeta.blobRef.hashName ++ ['-']) ccMeta.blobRef.str) 10 with
  | none => none
  | some s => some (s ++ fallbackExt name0 ccMeta)

/-- Lines 145-148 of searchResult.go: record the resolved name in all three
snapshot components. -/
def recordEntry (st : ProjSt) (name : Str) (ccMeta : DescribedBlob) (mt : Nat) : ProjSt :=
  { ents := st.ents ++ [(name, ccMeta)],
    modTime := st.modTime ++ [(name, mt)],
    names := st.names ++ [name] }

/-- Well-formedness of a refresh-pass state: `ents` and `modTime` have the
names of `names` as their key sequences, and no name repeats. -/
def ProjSt.wf (st : ProjSt) : Prop :=
  st.ents.map Prod.fst = st.names ∧ st.modTime.map Prod.fst = st.names ∧ st.names.Nodup

/-- The body of the result loop of `ReadDirAll` (lines 95-152) for one
matched blob `br`. Skips (Go `continue`) yield the state unchanged; the two
`res.Describe == nil` / `res.Describe.Meta == nil` tests of lines 98-105
collapse into the two outer matches. `none` models the slice panic. -/
def projectStep (dsc : Option DescribeResponse) (now : Nat) (st : ProjSt) (br : BlobRef) :
    Option ProjSt :=
  match dsc with
  | none => some st
  | some d =>
  match d.meta with
  | none => some st
  | some metaMap =>
  match mapGet metaMap br with
  | none => some st
  | some meta =>
  match meta.permanode with
  | none => some st
  | some pn =>
  match blobParse pn.camliContent with
  | none => some st
  | some cc =>
  match mapGet metaMap cc with
  | none => some st
  | some ccMeta =>
  match nameAndTime ccMeta now with
  | none => some st
  | some (name0, mt) =>
  if name0.isEmpty || (mapGet st.ents name0).isSome then
    match synthName name0 ccMeta with
    | none => none
    | some name =>
      if (mapGet st.ents name).isSome then some st
      else some (recordEntry st name ccMeta mt)
  else some (recordEntry st name0 ccMeta mt)

/-- The result loop of `ReadDirAll` over the matched blobs in result
order. -/
def projectAll (dsc : Option DescribeResponse) (now : Nat) :
    ProjSt → List BlobRef → Option ProjSt
  | st, [] => some st
  | st, br :: rest =>
    match projectStep dsc now st br with
    | none => none
    | some st2 => projectAll dsc now st2 rest

/-- The cache state of `searchResultDir` (searchResult.go lines 35-44).
Zero values of a fresh directory: `ents = none` (nil map), `modTime = []`,
`lastReaddir = none` (zero time), `lastNames = []`. -/
structure SearchResultDir where
  searchExp : Str
  ents : Option (List (Str × DescribedBlob))
  modTime : List (Str × Nat)
  lastReaddir : Option Nat
  lastNames : List Str
deriving DecidableEq

/-- Constant `searchSearchInterval = 10 * time.Second` (search.go line 50), in
seconds. -/
def searchSearchInterval : Nat := 10

/-- The freshness test at line 64 of searchResult.go:
`n.lastReaddir.After(time.Now().Add(-searchSearchInterval))`. The zero
time (never successfully refreshed) is never fresh. -/
def isFresh (d : SearchResultDir) (now : Nat) : Bool :=
  match d.lastReaddir with
  | none => false
  | some t => decide (now < t + searchSearchInterval)

/-- Function `searchResultDir.ReadDirAll` (searchResult.go lines 59-156). Result:
`(queried, outcome)` where `queried` records whether the backend search was
issued; `outcome = none` models a Go panic; an inner `none` models the
`fuse.EIO` return of line 91; otherwise the new cache state and the names
of the returned `fuse.Dirent`s. Note lines 74-75 clear `n.ents` and
`n.modTime` before the query is issued. -/
def readDirAll (d : SearchResultDir) (now : Nat) (queryRes : Option SearchResult) :
    Bool × Option (SearchResultDir × Option (List Str)) :=
  if isFresh d now then (false, some (d, some d.lastNames))
  else
    match queryRes with
    | none => (true, some ({ d with ents := some [], modTime := [] }, none))
    | some res =>
      match projectAll res.describe now ⟨[], [], []⟩ res.blobs with
      | none => (true, none)
      | some st =>
        let d2 : SearchResultDir :=
          { d with
            ents := some st.ents
            modTime := st.modTime
            lastNames := st.names
            lastReaddir := some now }
        (true, some (d2, some st.names))

/-- The node built at lines 190-196 of searchResult.go: blob identifier of
the described content item and the permanode modification time
(`n.modTime[name]`, the zero value 0 when absent). -/
structure SearchResultFile where
  blobref : BlobRef
  pnodeModTime : Nat
deriving DecidableEq

/-- Lines 184-204 of searchResult.go, after the bootstrap: read
`n.ents[name]` (a nil map reads as absent); `none` models `fuse.ENOENT`.
The `fetchSchemaMeta` call of line 197 is diagnostic only — its error is
ignored and the node is returned regardless — so it is not modelled. -/
def lookupDone (d : SearchResultDir) (name : Str) : Option SearchResultFile :=
  match d.ents with
  | none => none
  | some es =>
    match mapGet es name with
    | none => none
    | some db => some ⟨db.blobRef, (mapGet d.modTime name).getD 0⟩

/-- Function `searchResultDir.Lookup` (searchResult.go lines 172-205). Result:
`(queried, outcome)` where `queried` records whether a backend search was
issued (only possible through the bootstrap `ReadDirAll` of line 181, whose
error return is discarded); `outcome = none` models a propagated panic; the
inner option is `none` for `fuse.ENOENT`. -/
def lookup (d : SearchResultDir) (now : Nat) (queryRes : Option SearchResult) (name : Str) :
    Bool × Option (SearchResultDir × Option SearchResultFile) :=
  match d.ents with
  | some _ => (false, some (d, lookupDone d name))
  | none =>
    match readDirAll d now queryRes with
    | (q, none) => (q, none)
    | (q, some (d2, _)) => (q, some (d2, lookupDone d2 name))

/-! ### Concrete data used by the witnesses -/

/-- Hash-algorithm name of the sample blob references. -/
def hnW : Str := ['s', 'h', 'a']

/-- An 11-character digest (long enough for the 10-byte slice). -/
def digW : Str := ['0', '1', '2', '3', '4', '5', '6', '7', '8', '9', 'a']

/-- Sample permanode blob reference. -/
def brPermW : BlobRef := ⟨hnW, ['p', 'e', 'r', 'm', 'd', 'i', 'g', 'e', 's', 't']⟩

/-- Sample content blob reference. -/
def ccW : BlobRef := ⟨hnW, digW⟩

/-- String form of `ccW`, as stored in the camliContent attribute. -/
def ccStrW : Str := "sha-0123456789a".toList

/-- Sample content file name. -/
def fnameW : Str := ['f', '.', 't', 'x', 't']

/-- Sample file metadata. -/
def fileW : FileInfo := ⟨fnameW, "text/plain".toList, some 5⟩

/-- Described content item for `ccW`. -/
def ccMetaW : DescribedBlob := ⟨ccW, none, some fileW, none⟩

/-- Described permanode for `brPermW`, pointing at `ccW` via camliContent. -/
def permMetaW : DescribedBlob := ⟨brPermW, some ⟨ccStrW⟩, none, none⟩

/-- Describe index for the sample response. -/
def metaMapW : List (BlobRef × DescribedBlob) := [(brPermW, permMetaW), (ccW, ccMetaW)]

/-- Sample successful search response with one well-formed match. -/
def resW : SearchResult := ⟨[brPermW], some ⟨some metaMapW⟩⟩

/-- A freshly created directory (all fields at their Go zero values). -/
def dInitW : SearchResultDir := ⟨"is:image".toList, none, [], none, []⟩

/-- The directory state after refreshing `dInitW` at time 0 with `resW`. -/
def d2W : SearchResultDir :=
  ⟨"is:image".toList, some [(fnameW, ccMetaW)], [(fnameW, 5)], some 0, [fnameW]⟩

/-- A populated, stale directory holding three cached names. -/
def dC1 : SearchResultDir :=
  ⟨"is:image".toList, some [(fnameW, ccMetaW)], [(fnameW, 5)], some 0, [['a'], ['b'], ['c']]⟩

/-- A refresh-pass state in which `fnameW` is already claimed. -/
def stW : ProjSt := ⟨[(fnameW, ccMetaW)], [(fnameW, 5)], [fnameW]⟩

/-- A content blob reference with a digest of only 3 characters. -/
def ccShortW : BlobRef := ⟨hnW, ['0', '1', '2']⟩

/-- String form of `ccShortW`. -/
def ccShortStrW : Str := "sha-012".toList

/-- Described content item for `ccShortW`: file-shaped with an empty file
name, so the collision/empty-name branch is taken. -/
def ccShortMetaW : DescribedBlob := ⟨ccShortW, none, some ⟨[], "image/jpeg".toList, none⟩, none⟩

/-- Described permanode pointing at `ccShortW`. -/
def permShortMetaW : DescribedBlob := ⟨brPermW, some ⟨ccShortStrW⟩, none, none⟩

/-- Describe index holding the short-digest item. -/
def metaMapShortW : List (BlobRef × DescribedBlob) :=
  [(brPermW, permShortMetaW), (ccShortW, ccShortMetaW)]

/-! ### Association-list and string lemmas -/

/-- A list always starts with itself. -/
theorem hasPre_append (p s : Str) : hasPre p (p ++ s) = true := by
  induction p with
  | nil => rfl
  | cons c cs ih => simp [hasPre, ih]

/-- Trimming a present leading pattern leaves exactly the remainder. -/
theorem trimPre_append (p s : Str) : trimPre p (p ++ s) = s := by
  simp [trimPre, hasPre_append]

/-- Stripping `HashName() + "-"` from `BlobRef.String()` yields the digest
(line 140 of searchResult.go). -/
theorem trimPre_blobRefStr (br : BlobRef) :
    trimPre (br.hashName ++ ['-']) br.str = br.digest := by
  have h : br.str = (br.hashName ++ ['-']) ++ br.digest := by
    simp [BlobRef.str]
  rw [h, trimPre_append]

/-- The synthesized fallback name, when the digest has at least 10
characters. -/
theorem synthName_eq (name0 : Str) (ccMeta : DescribedBlob)
    (hlen : 10 ≤ ccMeta.blobRef.digest.length) :
    synthName name0 ccMeta =
      some (ccMeta.blobRef.digest.take 10 ++ fallbackExt name0 ccMeta) := by
  simp [synthName, trimPre_blobRefStr, goSliceTo, hlen]

/-- The synthesis panics (models the out-of-range slice) when the digest
has fewer than 10 characters. -/
theorem synthName_eq_none (name0 : Str) (ccMeta : DescribedBlob)
    (hlen : ccMeta.blobRef.digest.length < 10) :
    synthName name0 ccMeta = none := by
  have h : ¬ 10 ≤ (trimPre (ccMeta.blobRef.hashName ++ ['-']) ccMeta.blobRef.str).length := by
    rw [trimPre_blobRefStr]; omega
  simp [synthName, goSliceTo, h]

/-- Lookup `mapGet` misses exactly the keys that are not in the key list. -/
theorem mapGet_eq_none_iff {κ α : Type} [DecidableEq κ] (m : List (κ × α)) (k : κ) :
    mapGet m k = none ↔ k ∉ m.map Prod.fst := by
  induction m with
  | nil => simp [mapGet]
  | cons p rest ih =>
    obtain ⟨k2, v⟩ := p
    by_cases hk : k2 = k
    · subst hk; simp [mapGet]
    · have hk2 : ¬ k = k2 := fun h => hk h.symm
      simp [mapGet, hk, hk2, ih]

/-- A key present in the key list is found by `mapGet`. -/
theorem mapGet_isSome_of_mem {κ α : Type} [DecidableEq κ] (m : List (κ × α)) (k : κ)
    (h : k ∈ m.map Prod.fst) : ∃ v, mapGet m k = some v := by
  rcases ho : mapGet m k with _ | v
  · exact absurd h ((mapGet_eq_none_iff m k).mp ho)
  · exact ⟨v, rfl⟩

/-! ### The refresh pass preserves well-formedness -/

/-- Recording a fresh name preserves well-formedness. -/
theorem recordEntry_wf (st : ProjSt) (nm : Str) (cc : DescribedBlob) (mt : Nat)
    (hw : st.wf) (hnew : mapGet st.ents nm = none) : (recordEntry st nm cc mt).wf := by
  obtain ⟨h1, h2, h3⟩ := hw
  have hnm : nm ∉ st.names := by
    rw [← h1]; exact (mapGet_eq_none_iff st.ents nm).mp hnew
  refine ⟨?_, ?_, ?_⟩
  · simp [recordEntry, h1]
  · simp [recordEntry, h2]
  · simp [recordEntry, List.nodup_append, h3, hnm]

/-- One pass of the result loop either keeps the state, panics, or records
one name that was free beforehand. -/
theorem projectStep_cases (dsc : Option DescribeResponse) (now : Nat) (st : ProjSt)
    (br : BlobRef) :
    projectStep dsc now st br = some st ∨ projectStep dsc now st br = none ∨
    ∃ nm cc mt, mapGet st.ents nm = none ∧
      projectStep dsc now st br = some (recordEntry st nm cc mt) := by
  unfold projectStep
  repeat' split
  all_goals
    first
      | exact Or.inl rfl
      | exact Or.inr (Or.inl rfl)
      | (refine Or.inr (Or.inr ⟨_, _, _, ?_, rfl⟩)
         simp_all [Option.not_isSome_iff_eq_none])

/-- One pass of the result loop preserves well-formedness. -/
theorem projectStep_wf (dsc : Option DescribeResponse) (now : Nat) (st st2 : ProjSt)
    (br : BlobRef) (h : projectStep dsc now st br = some st2) (hw : st.wf) : st2.wf := by
  rcases projectStep_cases dsc now st br with hc | hc | ⟨nm, cc, mt, hn, hc⟩
  · rw [hc] at h
    injection h with h2
    subst h2; exact hw
  · rw [hc] at h; simp at h
  · rw [hc] at h
    injection h with h2
    subst h2
    exact recordEntry_wf st nm cc mt hw hn

/-- The whole result loop preserves well-formedness. -/
theorem projectAll_wf (dsc : Option DescribeResponse) (now : Nat) :
    ∀ (blobs : List BlobRef) (st st2 : ProjSt),
      projectAll dsc now st blobs = some st2 → st.wf → st2.wf := by
  intro blobs
  induction blobs with
  | nil =>
    intro st st2 h hw
    simp [projectAll] at h
    subst h; exact hw
  | cons br rest ih =>
    intro st st2 h hw
    rw [projectAll] at h
    rcases hs : projectStep dsc now st br with _ | st1
    · rw [hs] at h; simp at h
    · rw [hs] at h
      exact ih st1 st2 h (projectStep_wf dsc now st st1 br hs hw)

/-! ### Claim theorems -/

/-- C1 counterexample: on a stale directory whose cache holds a previous
successful snapshot (`dC1`, three cached names), a failed refresh does
return the I/O-class error, but `ents` and `modTime` are NOT left as they
were: lines 74-75 of searchResult.go clear them before the query is
issued, so the claim as stated is false at this input. -/
theorem readDirAll_failure_wipes_ents_cex :
    readDirAll dC1 10 none =
      (true, some ({ dC1 with ents := some [], modTime := [] }, none)) ∧
    ({ dC1 with ents := some [], modTime := [] } : SearchResultDir).ents ≠ dC1.ents ∧
    ({ dC1 with ents := some [], modTime := [] } : SearchResultDir).modTime ≠ dC1.modTime := by
  decide

/-- C1 (amended): if a stale-triggered refresh's backend query fails,
`ReadDirAll` returns an I/O-class error and leaves `lastNames`
(orderedNames) and `lastReaddir` (lastRefresh) exactly as they were — so a
retried read within the old TTL window still reports the previous cached
names — but `ents` and `modTime` are reset to freshly cleared (empty,
populated) maps before the query and stay that way. -/
theorem readDirAll_failure_preserves_names (d : SearchResultDir) (now t : Nat)
    (hlr : d.lastReaddir = some t) (hstale : t + searchSearchInterval ≤ now) :
    readDirAll d now none =
      (true, some ({ d with ents := some [], modTime := [] }, none)) ∧
    ∀ now2, now2 < t + searchSearchInterval →
      readDirAll { d with ents := some [], modTime := [] } now2 none =
        (false, some ({ d with ents := some [], modTime := [] }, some d.lastNames)) := by
  have hf : isFresh d now = false := by
    simp only [isFresh, hlr, decide_eq_false_iff_not]
    omega
  constructor
  · simp [readDirAll, hf]
  · intro now2 h2
    have hf2 : isFresh { d with ents := some [], modTime := [] } now2 = true := by
      simp only [isFresh, hlr, decide_eq_true_eq]
      exact h2
    simp [readDirAll, hf2]

/-- C1 witness: the amended behavior at the concrete stale directory
`dC1`. -/
theorem readDirAll_failure_preserves_names_witness :
    readDirAll dC1 10 none =
      (true, some ({ dC1 with ents := some [], modTime := [] }, none)) ∧
    readDirAll { dC1 with ents := some [], modTime := [] } 5 none =
      (false, some ({ dC1 with ents := some [], modTime := [] }, some dC1.lastNames)) :=
  ⟨(readDirAll_failure_preserves_names dC1 10 0 rfl (by decide)).1,
   (readDirAll_failure_preserves_names dC1 10 0 rfl (by decide)).2 5 (by decide)⟩

/-- C2: a `ReadDirAll` strictly within the TTL of the last successful
refresh serves the cached ordered names without consulting the backend; at
or after TTL expiry it issues exactly one backend query. -/
theorem readDirAll_ttl_window (d : SearchResultDir) (now : Nat) (q : Option SearchResult)
    (t : Nat) (hlr : d.lastReaddir = some t) :
    (now < t + searchSearchInterval →
        readDirAll d now q = (false, some (d, some d.lastNames))) ∧
    (t + searchSearchInterval ≤ now → (readDirAll d now q).1 = true) := by
  constructor
  · intro hlt
    have hf : isFresh d now = true := by
      simp only [isFresh, hlr, decide_eq_true_eq]
      exact hlt
    simp [readDirAll, hf]
  · intro hge
    have hf : isFresh d now = false := by
      simp only [isFresh, hlr, decide_eq_false_iff_not]
      omega
    rcases q with _ | res
    · simp [readDirAll, hf]
    · rcases hp : projectAll res.describe now ⟨[], [], []⟩ res.blobs with _ | st <;>
        simp [readDirAll, hf, hp]

/-- C2 witness: one call inside the TTL window (cache served, no query)
and one at TTL expiry (query issued), on the refreshed directory `d2W`. -/
theorem readDirAll_ttl_window_witness :
    readDirAll d2W 3 none = (false, some (d2W, some d2W.lastNames)) ∧
    (readDirAll d2W 10 none).1 = true :=
  ⟨(readDirAll_ttl_window d2W 3 none 0 rfl).1 (by decide),
   (readDirAll_ttl_window d2W 10 none 0 rfl).2 (by decide)⟩

/-- C5: on a directory whose cache is populated, looking up a name absent
from the snapshot fails with the NotFound-class error, issues no backend
query, and leaves the state unchanged. -/
theorem lookup_miss_populated (d : SearchResultDir) (now : Nat) (q : Option SearchResult)
    (name : Str) (es : List (Str × DescribedBlob))
    (he : d.ents = some es) (hm : mapGet es name = none) :
    lookup d now q name = (false, some (d, none)) := by
  simp [lookup, lookupDone, he, hm]

/-- C5 witness: a missing name on the populated directory `d2W`. -/
theorem lookup_miss_populated_witness :
    lookup d2W 100 none ['z'] = (false, some (d2W, none)) :=
  lookup_miss_populated d2W 100 none ['z'] [(fnameW, ccMetaW)] rfl (by decide)

/-- C8: on a directory whose cache is populated, `Lookup` never issues a
backend query and never mutates the snapshot, at any time and for any
backend behavior — its outcome is the pure read `lookupDone`. -/
theorem lookup_populated_pure (d : SearchResultDir) (now : Nat) (q : Option SearchResult)
    (name : Str) (es : List (Str × DescribedBlob)) (he : d.ents = some es) :
    lookup d now q name = (false, some (d, lookupDone d name)) := by
  simp [lookup, he]

/-- C8 witness: an arbitrarily late lookup on the populated directory
`d2W` still consults only the snapshot. -/
theorem lookup_populated_pure_witness :
    lookup d2W 1000000 none fnameW = (false, some (d2W, lookupDone d2W fnameW)) :=
  lookup_populated_pure d2W 1000000 none fnameW [(fnameW, ccMetaW)] rfl

/-- C9: when the bootstrap refresh of a never-populated directory fails at
the backend, the error is discarded: `Lookup` answers with the
NotFound-class error (not I/O), the cache is left as populated-but-empty
maps, and every subsequent `Lookup` answers NotFound without touching the
backend. -/
theorem lookup_bootstrap_failure (d : SearchResultDir) (now : Nat) (name : Str)
    (hents : d.ents = none) (hlr : d.lastReaddir = none) :
    lookup d now none name =
      (true, some ({ d with ents := some [], modTime := [] }, none)) ∧
    ∀ now2 q2 name2,
      lookup { d with ents := some [], modTime := [] } now2 q2 name2 =
        (false, some ({ d with ents := some [], modTime := [] }, none)) := by
  have hf : isFresh d now = false := by
    simp [isFresh, hlr]
  constructor
  · simp [lookup, hents, readDirAll, hf, lookupDone, mapGet]
  · intro now2 q2 name2
    simp [lookup, lookupDone, mapGet]

/-- C9 witness: a failed bootstrap on the fresh directory `dInitW`,
followed by a later lookup that gets NotFound without a query even though
the backend would now answer. -/
theorem lookup_bootstrap_failure_witness :
    lookup dInitW 7 none ['x'] =
      (true, some ({ dInitW with ents := some [], modTime := [] }, none)) ∧
    lookup { dInitW with ents := some [], modTime := [] } 99 (some resW) ['y'] =
      (false, some ({ dInitW with ents := some [], modTime := [] }, none)) :=
  ⟨(lookup_bootstrap_failure dInitW 7 ['x'] rfl rfl).1,
   (lookup_bootstrap_failure dInitW 7 ['x'] rfl rfl).2 99 (some resW) ['y']⟩

/-! ### Collision-branch and refresh characterizations -/

/-- The fallback extension of lines 136-139, rephrased by cases: the
original candidate's extension when non-empty; ".jpg" for an
extension-less file-shaped item whose MIME type ends in "image/jpeg";
nothing otherwise. -/
theorem fallbackExt_eq_spec (name0 : Str) (ccMeta : DescribedBlob) :
    fallbackExt name0 ccMeta =
      (if filepathExt name0 = []
       then match ccMeta.file with
            | some f => if hasSuf jpegMime f.mimeType = true then jpgExt else []
            | none => []
       else filepathExt name0) := by
  unfold fallbackExt
  by_cases he : filepathExt name0 = []
  · rcases hf : ccMeta.file with _ | f
    · simp [he, hf]
    · by_cases hs : hasSuf jpegMime f.mimeType = true <;> simp [he, hf, hs]
  · simp [he, List.isEmpty_iff]

/-- A stale `ReadDirAll` whose query and projection succeed installs the
new snapshot and returns its names. -/
theorem readDirAll_stale_success (d : SearchResultDir) (now : Nat) (res : SearchResult)
    (st : ProjSt) (hf : isFresh d now = false)
    (hp : projectAll res.describe now ⟨[], [], []⟩ res.blobs = some st) :
    readDirAll d now (some res) =
      (true, some
        ({ d with
            ents := some st.ents
            modTime := st.modTime
            lastNames := st.names
            lastReaddir := some now },
          some st.names)) := by
  simp [readDirAll, hf, hp]

/-- In the collision/empty-name branch (line 135 taken), the step is
decided by the synthesized fallback name. -/
theorem projectStep_collision (metaMap : List (BlobRef × DescribedBlob)) (br cc : BlobRef)
    (meta ccMeta : DescribedBlob) (pn : Permanode) (name0 : Str) (mt now : Nat) (st : ProjSt)
    (h1 : mapGet metaMap br = some meta)
    (h2 : meta.permanode = some pn)
    (h3 : blobParse pn.camliContent = some cc)
    (h4 : mapGet metaMap cc = some ccMeta)
    (h5 : nameAndTime ccMeta now = some (name0, mt))
    (hcol : name0 = [] ∨ (mapGet st.ents name0).isSome = true) :
    projectStep (some ⟨some metaMap⟩) now st br =
      match synthName name0 ccMeta with
      | none => none
      | some name =>
        if (mapGet st.ents name).isSome then some st
        else some (recordEntry st name ccMeta mt) := by
  have hif : (name0.isEmpty || (mapGet st.ents name0).isSome) = true := by
    rcases hcol with h | h
    · subst h; rfl
    · simp [h]
  simp [projectStep, h1, h2, h3, h4, h5, hif]

/-- C3: in the collision/empty-name branch, when the stripped identifier
has at least 10 characters, the recorded name is its first 10 characters
plus the extension of the original candidate name — replaced by ".jpg"
when that extension is empty and the file-shaped item's MIME type ends in
"image/jpeg", and by nothing otherwise — and if that synthesized name is
also claimed, the item is dropped with the state left unchanged. -/
theorem collision_resolution (metaMap : List (BlobRef × DescribedBlob)) (br cc : BlobRef)
    (meta ccMeta : DescribedBlob) (pn : Permanode) (name0 : Str) (mt now : Nat) (st : ProjSt)
    (h1 : mapGet metaMap br = some meta)
    (h2 : meta.permanode = some pn)
    (h3 : blobParse pn.camliContent = some cc)
    (h4 : mapGet metaMap cc = some ccMeta)
    (h5 : nameAndTime ccMeta now = some (name0, mt))
    (hcol : name0 = [] ∨ (mapGet st.ents name0).isSome = true)
    (hlen : 10 ≤ ccMeta.blobRef.digest.length) :
    projectStep (some ⟨some metaMap⟩) now st br =
      (let ext :=
        if filepathExt name0 = []
        then match ccMeta.file with
             | some f => if hasSuf jpegMime f.mimeType = true then jpgExt else []
             | none => []
        else filepathExt name0
       let nm := ccMeta.blobRef.digest.take 10 ++ ext
       if (mapGet st.ents nm).isSome then some st
       else some (recordEntry st nm ccMeta mt)) := by
  rw [projectStep_collision metaMap br cc meta ccMeta pn name0 mt now st h1 h2 h3 h4 h5 hcol,
    synthName_eq name0 ccMeta hlen, fallbackExt_eq_spec]

/-- C3 witness: a second item whose candidate name `f.txt` is already
claimed in `stW` is recorded under `0123456789.txt`. -/
theorem collision_resolution_witness :
    projectStep (some ⟨some metaMapW⟩) 0 stW brPermW =
      some (recordEntry stW
        (['0', '1', '2', '3', '4', '5', '6', '7', '8', '9'] ++ ['.', 't', 'x', 't'])
        ccMetaW 5) :=
  collision_resolution metaMapW brPermW ccW permMetaW ccMetaW ⟨ccStrW⟩ fnameW 5 0 stW
    (by decide) rfl (by decide) (by decide) (by decide) (Or.inr (by decide)) (by decide)

/-- C10: the fallback-name slice of line 140 has no length guard: in the
collision branch the refresh step is panic-free exactly when the stripped
digest has at least 10 characters, and for any shorter identifier the
slice is out of bounds (a Go runtime panic, modelled as `none`). -/
theorem collision_slice_bound (metaMap : List (BlobRef × DescribedBlob)) (br cc : BlobRef)
    (meta ccMeta : DescribedBlob) (pn : Permanode) (name0 : Str) (mt now : Nat) (st : ProjSt)
    (h1 : mapGet metaMap br = some meta)
    (h2 : meta.permanode = some pn)
    (h3 : blobParse pn.camliContent = some cc)
    (h4 : mapGet metaMap cc = some ccMeta)
    (h5 : nameAndTime ccMeta now = some (name0, mt))
    (hcol : name0 = [] ∨ (mapGet st.ents name0).isSome = true) :
    (10 ≤ ccMeta.blobRef.digest.length →
      (projectStep (some ⟨some metaMap⟩) now st br).isSome = true) ∧
    (ccMeta.blobRef.digest.length < 10 →
      projectStep (some ⟨some metaMap⟩) now st br = none) := by
  have hc := projectStep_collision metaMap br cc meta ccMeta pn name0 mt now st
    h1 h2 h3 h4 h5 hcol
  constructor
  · intro hlen
    rw [hc, synthName_eq name0 ccMeta hlen]
    by_cases hn : (mapGet st.ents
        (ccMeta.blobRef.digest.take 10 ++ fallbackExt name0 ccMeta)).isSome = true <;>
      simp [hn]
  · intro hlen
    rw [hc, synthName_eq_none name0 ccMeta hlen]

/-- C10 witness: an empty-named item whose content identifier has a
3-character digest makes the refresh step panic. -/
theorem collision_slice_bound_witness :
    projectStep (some ⟨some metaMapShortW⟩) 0 stW brPermW = none :=
  (collision_slice_bound metaMapShortW brPermW ccShortW permShortMetaW ccShortMetaW
      ⟨ccShortStrW⟩ [] 0 0 stW (by decide) rfl (by decide) (by decide) (by decide)
      (Or.inl rfl)).2 (by decide)

/-- C4: after every successful refresh, the key sequence of `ents`, the
key sequence of `modTime` and the name sequence `lastNames` coincide, and
no name repeats. -/
theorem readDirAll_snapshot_wf (d : SearchResultDir) (now : Nat) (res : SearchResult)
    (d2 : SearchResultDir) (names : List Str) (es : List (Str × DescribedBlob))
    (h : readDirAll d now (some res) = (true, some (d2, some names)))
    (he : d2.ents = some es) :
    es.map Prod.fst = names ∧ d2.modTime.map Prod.fst = names ∧ names.Nodup := by
  by_cases hfp : isFresh d now = true
  · have hq : (readDirAll d now (some res)).1 = false := by simp [readDirAll, hfp]
    rw [h] at hq
    simp at hq
  · have hf : isFresh d now = false := by simpa using hfp
    rcases hp : projectAll res.describe now ⟨[], [], []⟩ res.blobs with _ | st
    · have hq : readDirAll d now (some res) = (true, none) := by simp [readDirAll, hf, hp]
      rw [h] at hq
      simp at hq
    · have hq := readDirAll_stale_success d now res st hf hp
      rw [h] at hq
      simp only [Prod.mk.injEq, Option.some.injEq, true_and] at hq
      obtain ⟨hd2, hn⟩ := hq
      subst hd2
      subst hn
      simp only [Option.some.injEq] at he
      subst he
      have hw : st.wf := projectAll_wf res.describe now res.blobs ⟨[], [], []⟩ st hp
        ⟨rfl, rfl, List.nodup_nil⟩
      exact hw

/-- C4 witness: the snapshot installed by refreshing `dInitW` with `resW`
is well-formed. -/
theorem readDirAll_snapshot_wf_witness :
    ([(fnameW, ccMetaW)].map Prod.fst = [fnameW] ∧
     d2W.modTime.map Prod.fst = [fnameW] ∧ ([fnameW] : List Str).Nodup) :=
  readDirAll_snapshot_wf dInitW 0 resW d2W [fnameW] [(fnameW, ccMetaW)]
    (by decide) (by decide)

/-- C6: a `Lookup` on a never-populated directory forces exactly one
backend query through the bootstrap refresh, and then succeeds for every
name of the resulting listing, returning a node carrying the matched
item's content-blob identifier and the recorded modification time. -/
theorem lookup_bootstrap_success (d : SearchResultDir) (now : Nat) (res : SearchResult)
    (name : Str) (b : Bool) (d2 : SearchResultDir) (names : List Str)
    (hents : d.ents = none) (hlr : d.lastReaddir = none)
    (hsucc : readDirAll d now (some res) = (b, some (d2, some names)))
    (hmem : name ∈ names) :
    b = true ∧
    ∃ es db mt, d2.ents = some es ∧ mapGet es name = some db ∧
      mapGet d2.modTime name = some mt ∧
      lookup d now (some res) name = (true, some (d2, some ⟨db.blobRef, mt⟩)) := by
  have hf : isFresh d now = false := by simp [isFresh, hlr]
  rcases hp : projectAll res.describe now ⟨[], [], []⟩ res.blobs with _ | st
  · have hq : readDirAll d now (some res) = (true, none) := by simp [readDirAll, hf, hp]
    rw [hsucc] at hq
    simp at hq
  · have hq := readDirAll_stale_success d now res st hf hp
    rw [hsucc] at hq
    simp only [Prod.mk.injEq, Option.some.injEq] at hq
    obtain ⟨hb, hd2, hn⟩ := hq
    subst hb
    subst hd2
    subst hn
    have hw : st.wf := projectAll_wf res.describe now res.blobs ⟨[], [], []⟩ st hp
      ⟨rfl, rfl, List.nodup_nil⟩
    obtain ⟨hw1, hw2, -⟩ := hw
    obtain ⟨db, hdb⟩ := mapGet_isSome_of_mem st.ents name (by rw [hw1]; exact hmem)
    obtain ⟨mt, hmt⟩ := mapGet_isSome_of_mem st.modTime name (by rw [hw2]; exact hmem)
    refine ⟨rfl, st.ents, db, mt, rfl, hdb, hmt, ?_⟩
    have hrd := readDirAll_stale_success d now res st hf hp
    simp [lookup, hents, hrd, lookupDone, hdb, hmt]

/-- C6 witness: the bootstrap lookup of `f.txt` on the fresh directory
`dInitW` queries once and returns the node for `ccW` at time 5. -/
theorem lookup_bootstrap_success_witness :
    (true : Bool) = true ∧
    ∃ es db mt, d2W.ents = some es ∧ mapGet es fnameW = some db ∧
      mapGet d2W.modTime fnameW = some mt ∧
      lookup dInitW 0 (some resW) fnameW = (true, some (d2W, some ⟨db.blobRef, mt⟩)) :=
  lookup_bootstrap_success dInitW 0 resW fnameW true d2W [fnameW] rfl rfl
    (by decide) (by decide)

/-- C7: a match missing description metadata, an unparseable or
unresolvable content relation, or a content item that is neither
file-shaped nor directory-shaped is skipped without aborting: the step
leaves the pass state unchanged and the loop continues with the remaining
matches in result order. -/
theorem projectStep_skips_malformed (dsc : Option DescribeResponse) (now : Nat)
    (st : ProjSt) (br : BlobRef) (rest : List BlobRef)
    (h :
      dsc = none ∨
      (∃ dd, dsc = some dd ∧ dd.meta = none) ∨
      (∃ dd mm, dsc = some dd ∧ dd.meta = some mm ∧ mapGet mm br = none) ∨
      (∃ dd mm meta, dsc = some dd ∧ dd.meta = some mm ∧ mapGet mm br = some meta ∧
        meta.permanode = none) ∨
      (∃ dd mm meta pn, dsc = some dd ∧ dd.meta = some mm ∧ mapGet mm br = some meta ∧
        meta.permanode = some pn ∧ blobParse pn.camliContent = none) ∨
      (∃ dd mm meta pn cc, dsc = some dd ∧ dd.meta = some mm ∧ mapGet mm br = some meta ∧
        meta.permanode = some pn ∧ blobParse pn.camliContent = some cc ∧
        mapGet mm cc = none) ∨
      (∃ dd mm meta pn cc ccMeta, dsc = some dd ∧ dd.meta = some mm ∧
        mapGet mm br = some meta ∧ meta.permanode = some pn ∧
        blobParse pn.camliContent = some cc ∧ mapGet mm cc = some ccMeta ∧
        ccMeta.file = none ∧ ccMeta.dir = none)) :
    projectStep dsc now st br = some st ∧
    projectAll dsc now st (br :: rest) = projectAll dsc now st rest := by
  have hs : projectStep dsc now st br = some st := by
    rcases h with rfl | ⟨dd, rfl, hm⟩ | ⟨dd, mm, rfl, hm, g1⟩
      | ⟨dd, mm, meta, rfl, hm, g1, g2⟩
      | ⟨dd, mm, meta, pn, rfl, hm, g1, g2, g3⟩
      | ⟨dd, mm, meta, pn, cc, rfl, hm, g1, g2, g3, g4⟩
      | ⟨dd, mm, meta, pn, cc, ccMeta, rfl, hm, g1, g2, g3, g4, g5, g6⟩
    · rfl
    · simp [projectStep, hm]
    · simp [projectStep, hm, g1]
    · simp [projectStep, hm, g1, g2]
    · simp [projectStep, hm, g1, g2, g3]
    · simp [projectStep, hm, g1, g2, g3, g4]
    · simp [projectStep, hm, g1, g2, g3, g4, nameAndTime, g5, g6]
  refine ⟨hs, ?_⟩
  simp [projectAll, hs]

/-- C7 witness: a match whose content item is neither file-shaped nor
directory-shaped is skipped and the loop proceeds to the next match. -/
theorem projectStep_skips_malformed_witness :
    projectStep (some ⟨some [(brPermW, permMetaW), (ccW, ⟨ccW, none, none, none⟩)]⟩) 0 stW
        brPermW = some stW ∧
    projectAll (some ⟨some [(brPermW, permMetaW), (ccW, ⟨ccW, none, none, none⟩)]⟩) 0 stW
        (brPermW :: [ccW]) =
      projectAll (some ⟨some [(brPermW, permMetaW), (ccW, ⟨ccW, none, none, none⟩)]⟩) 0 stW
        [ccW] :=
  projectStep_skips_malformed (some ⟨some [(brPermW, permMetaW), (ccW, ⟨ccW, none, none, none⟩)]⟩)
    0 stW brPermW [ccW]
    (Or.inr (Or.inr (Or.inr (Or.inr (Or.inr (Or.inr
      ⟨⟨some [(brPermW, permMetaW), (ccW, ⟨ccW, none, none, none⟩)]⟩,
        [(brPermW, permMetaW), (ccW, ⟨ccW, none, none, none⟩)],
        permMetaW, ⟨ccStrW⟩, ccW, ⟨ccW, none, none, none⟩,
        rfl, rfl, by decide, rfl, by decide, by decide, rfl, rfl⟩))))))

end PerkeepFS
